import Mathlib

/-!
Verification development for the SIMPLE_3Planes driver.

The Python sources embedded here are:
  * `src/atme.py` — the `train` and `test` driver functions;
  * `src/options/simple_options.py` / `src/options/base_options.py` —
    the `parse` method's gpu-id handling.

External collaborators (model, dataset, visualizer, file formats) are
abstracted exactly at their call boundaries: model inference is an
abstract function, the wall clock is dropped (only the assignment
discipline of the `t_data` variable is tracked), randomness is recorded
as the distribution drawn from, and side effects are recorded as an
event trace.
-/

namespace SimpleThreePlanes

/-- Configuration record: the argparse-namespace fields of
`options/base_options.py` and `options/simple_options.py` that the
`train`/`test` functions in `src/atme.py` consume or assign.
`has_n_save_noisy` models the dynamic check `'n_save_noisy' in vars(opt)`
at `src/atme.py:70` (that attribute is installed by a model-specific
option setter, so its presence is a fact about the parsed namespace). -/
structure Opt where
  isTrain : Bool
  main_root : String
  model_root : String
  exp_name : String
  data_name : String
  save_dir : String
  data_dir : String
  epoch_count : Nat
  n_epochs : Nat
  n_epochs_decay : Nat
  batch_size : Nat
  display_freq : Nat
  update_html_freq : Nat
  print_freq : Nat
  save_latest_freq : Nat
  save_epoch_freq : Nat
  save_by_iter : Bool
  has_n_save_noisy : Bool
  global_min : Int
  global_max : Int
  save_nifti : Bool
  vol_cube_dim : Nat
deriving DecidableEq, Repr

/-- `os.path.join` for the plain relative components used in `src/atme.py`. -/
def pjoin (a b : String) : String := a ++ "/" ++ b

/-- The slice index passed to `save_atme_images` at `src/atme.py:93`:
either the deterministic batch index (when `batch_size == 1`) or a draw of
`random.randint(0, batch_size)`.  Python's `random.randint(a, b)` samples
the closed interval `[a, b]`, inclusive on both ends, so the draw is
recorded as `rand 0 batch_size`. -/
inductive SliceChoice where
  | det (i : Nat)
  | rand (lo hi : Nat)
deriving DecidableEq, Repr

/-- The set of values a `SliceChoice` can take: a singleton for the
deterministic branch, and the closed interval `[lo, hi]` for a
`random.randint(lo, hi)` draw. -/
def SliceChoice.support : SliceChoice → Finset Nat
  | .det i => {i}
  | .rand lo hi => Finset.Icc lo hi

/-- The checkpoint tag of `src/atme.py:90`:
`'iter_%d' % total_iters if opt.save_by_iter else 'latest'`. -/
inductive SaveTag where
  | latest
  | byIter (t : Nat)
deriving DecidableEq, Repr

/-- One observable side effect of the training loop in `src/atme.py:57-108`,
in program order.  `stepDone t` records the iteration counter's value right
after `total_iters += opt.batch_size` (line 68). -/
inductive Event where
  | vreset (epoch : Nat)
  | updateLR (epoch : Nat)
  | stepDone (iters : Nat)
  | setInput (epoch i : Nat) (withEpoch : Bool)
  | optimize (epoch i : Nat)
  | display (iters : Nat)
  | printLosses (iters : Nat)
  | saveLatest (iters epoch i : Nat) (tag : SaveTag) (choice : SliceChoice)
  | saveEpochCkpt (epoch : Nat)
  | saveDLosses (epoch : Nat)
  | tboard (epoch : Nat)
deriving DecidableEq, Repr

/-- The slice-index expression at `src/atme.py:93`:
`i if opt.batch_size == 1 else random.randint(0, opt.batch_size)`. -/
def sliceNumChoice (B i : Nat) : SliceChoice :=
  if B = 1 then .det i else .rand 0 B

/-- The checkpoint-tag expression at `src/atme.py:90`. -/
def saveTagOf (save_by_iter : Bool) (t : Nat) : SaveTag :=
  if save_by_iter then .byIter t else .latest

/-- State threaded through the training loop: the global iteration counter
`total_iters`, the data-timing variable `t_data` (`none` while unassigned,
`some t` once line 66 executed with counter value `t`), a flag recording
whether line 84 ever read `t_data` while it was unassigned, and the trace
of side effects so far. -/
structure TrainState where
  total_iters : Nat
  t_data : Option Nat
  read_before_assign : Bool
  trace : List Event
deriving DecidableEq, Repr

/-- The guarded assignment of lines 65-66 of `src/atme.py`: `t_data` is
(re)assigned iff the pre-increment counter is an exact multiple of
`print_freq`. -/
def tdataUpdate (pf t : Nat) (td : Option Nat) : Option Nat :=
  if t % pf = 0 then some t else td

/-- The events emitted by one iteration of the batch loop
(`src/atme.py:63-96`) once the counter has advanced to `t'`:
the counter step, `set_input` (with the epoch argument iff `n_save_noisy`
is present), `optimize_parameters`, and the three independent cadences
checked against `t'`: `display_freq` (line 76), `print_freq` (line 81),
`save_latest_freq` (line 88). -/
def batchEvents (opt : Opt) (epoch i t' : Nat) : List Event :=
  [Event.stepDone t', Event.setInput epoch i opt.has_n_save_noisy,
   Event.optimize epoch i]
  ++ (if t' % opt.display_freq = 0 then [Event.display t'] else [])
  ++ (if t' % opt.print_freq = 0 then [Event.printLosses t'] else [])
  ++ (if t' % opt.save_latest_freq = 0 then
        [Event.saveLatest t' epoch i (saveTagOf opt.save_by_iter t')
          (sliceNumChoice opt.batch_size i)]
      else [])

/-- One iteration of the batch loop (`src/atme.py:63-96`): the guarded
`t_data` assignment happens before the counter advances; the `print_freq`
branch (line 81-84) reads `t_data`, and `read_before_assign` records
whether that read ever saw an unassigned variable. -/
def batchStep (opt : Opt) (epoch i : Nat) (s : TrainState) : TrainState :=
  let td := tdataUpdate opt.print_freq s.total_iters s.t_data
  let t' := s.total_iters + opt.batch_size
  { total_iters := t'
    t_data := td
    read_before_assign :=
      s.read_before_assign || (decide (t' % opt.print_freq = 0) && td.isNone)
    trace := s.trace ++ batchEvents opt epoch i t' }

/-- The epoch-end side effects of `src/atme.py:97-106`: the
`save_epoch_freq` checkpoint, `save_D_losses`, and the tensorboard write. -/
def epochTail (opt : Opt) (epoch : Nat) : List Event :=
  (if epoch % opt.save_epoch_freq = 0 then [Event.saveEpochCkpt epoch] else [])
  ++ [Event.saveDLosses epoch, Event.tboard epoch]

/-- The batch loop over the enumerated dataset indices. -/
def runBatches (opt : Opt) (epoch : Nat) : List Nat → TrainState → TrainState
  | [], s => s
  | i :: is, s => runBatches opt epoch is (batchStep opt epoch i s)

/-- One epoch of `src/atme.py:57-108`: `visualizer.reset()` and
`model.update_learning_rate()` (lines 61-62) precede the batch loop over
the `N` dataset items; the epoch-end effects follow it. -/
def runEpoch (opt : Opt) (N epoch : Nat) (s : TrainState) : TrainState :=
  let s1 : TrainState :=
    { s with trace := s.trace ++ [Event.vreset epoch, Event.updateLR epoch] }
  let s2 := runBatches opt epoch (List.range N) s1
  { s2 with trace := s2.trace ++ epochTail opt epoch }

/-- The epoch loop, iterated over an explicit list of epoch numbers. -/
def runEpochList (opt : Opt) (N : Nat) : List Nat → TrainState → TrainState
  | [], s => s
  | e :: es, s => runEpochList opt N es (runEpoch opt N e s)

/-- The epoch numbers visited by
`range(opt.epoch_count, opt.n_epochs + opt.n_epochs_decay + 1)`
(`src/atme.py:57`). -/
def trainEpochs (opt : Opt) : List Nat :=
  List.range' opt.epoch_count (opt.n_epochs + opt.n_epochs_decay + 1 - opt.epoch_count)

/-- The assignments `train` performs on the configuration before the epoch
loop (`src/atme.py:40-43`): `opt.isTrain = True` and the two derived
directory fields. -/
def trainSetup (opt : Opt) : Opt :=
  { opt with
      isTrain := true
      save_dir := pjoin opt.main_root (pjoin opt.model_root opt.exp_name)
      data_dir := pjoin opt.main_root (pjoin opt.model_root opt.data_name) }

/-- Loop state at entry of `train`: counter 0, `t_data` unassigned, empty
trace. -/
def initTrainState : TrainState := ⟨0, none, false, []⟩

/-- The whole of `train(opt)` (`src/atme.py:39-108`) over a dataset that
yields `N` batches per epoch, observed as its final loop state. -/
def runTrain (opt : Opt) (N : Nat) : TrainState :=
  runEpochList (trainSetup opt) N (trainEpochs (trainSetup opt)) initTrainState

/-- The value of the configuration object when `train` returns: the epoch
loop body contains no assignment to any `opt` field, so only the entry
assignments of `trainSetup` remain. -/
def runTrainDriver (opt : Opt) (N : Nat) : Opt × TrainState :=
  (trainSetup opt, runTrain opt N)

/-- A 4-axis tensor (`batch × channel × height × width`), the type of
`model.fake_B`; only pointwise reads matter to the driver, so the entries
are a total function. -/
structure Tensor4 where
  data : Nat → Nat → Nat → Nat → Int

/-- A 3-axis tensor with an explicit shape, the type of `gen_vol` in
`test` (`src/atme.py:140`). -/
structure Tensor3 where
  shape : Nat × Nat × Nat
  data : Nat → Nat → Nat → Int

/-- `torch.zeros((s0, s1, s2))`. -/
def zeros3 (s : Nat × Nat × Nat) : Tensor3 := ⟨s, fun _ _ _ => 0⟩

/-- The slice assignment `gen_vol[j, :, :] = img` (`src/atme.py:144`):
shape unchanged, row `j` overwritten. -/
def setSlice (v : Tensor3) (j : Nat) (img : Nat → Nat → Int) : Tensor3 :=
  ⟨v.shape, fun j' x y => if j' = j then img x y else v.data j' x y⟩

/-- `enumerate`, with an explicit starting index to support induction. -/
def enumF (k : Nat) : List Nat → List (Nat × Nat)
  | [] => []
  | d :: ds => (k, d) :: enumF (k + 1) ds

/-- The slice loop of `src/atme.py:141-144` over the enumerated per-case
dataset: for each `(j, data)`, write the first-channel, first-batch-element
2D inference output `model.fake_B[0, 0, :, :]` into the volume at row `j`.
`fakeB d` abstracts the model state after `set_input(data); test()`. -/
def fillVol (fakeB : Nat → Tensor4) : List (Nat × Nat) → Tensor3 → Tensor3
  | [], v => v
  | (j, d) :: rest, v =>
      fillVol fakeB rest (setSlice v j (fun x y => (fakeB d).data 0 0 x y))

/-- Lines 140-144 of `src/atme.py` for one case: allocate
`torch.zeros((len(dataset), vol_cube_dim, vol_cube_dim))` and run the
slice loop over the dataset `ds`. -/
def runCaseVol (D : Nat) (fakeB : Nat → Tensor4) (ds : List Nat) : Tensor3 :=
  fillVol fakeB (enumF 0 ds) (zeros3 (ds.length, D, D))

/-- Filesystem abstraction for the `test` driver: the directories that
exist and the files written, a file being a pair (containing directory,
file name). -/
structure FS where
  dirs : List String
  files : List (String × String)
deriving DecidableEq, Repr

/-- The empty filesystem a fresh run starts against. -/
def emptyFS : FS := ⟨[], []⟩

/-- Lines 132-133 of `src/atme.py`:
`if not os.path.exists(save_dir): os.makedirs(save_dir)`. -/
def mkdirIfAbsent (fs : FS) (d : String) : FS :=
  if d ∈ fs.dirs then fs else { fs with dirs := fs.dirs ++ [d] }

/-- The per-case output directory
`os.path.join(opt.data_dir, 'generation', f'case_<i>')` of
`src/atme.py:131`. -/
def caseDir (opt : Opt) (i : Nat) : String :=
  pjoin (pjoin opt.data_dir "generation") ("case_" ++ toString i)

/-- The body of the case loop (`src/atme.py:128-158`) restricted to its
filesystem effects: idempotent directory creation, then
`torch.save(gen_vol, .../atme_vol.pt)` always, and
`save_nifti(gen_vol, .../atme_vol.nii.gz)` iff `opt.save_nifti`.
(The in-memory volume computation of the same body is `runCaseVol`.) -/
def testCase (opt : Opt) (i : Nat) (fs : FS) : FS :=
  let d := caseDir opt i
  let fs1 := mkdirIfAbsent fs d
  let fs2 : FS := { fs1 with files := fs1.files ++ [(d, "atme_vol.pt")] }
  if opt.save_nifti then
    { fs2 with files := fs2.files ++ [(d, "atme_vol.nii.gz")] }
  else fs2

/-- The case loop of `test`, over the case indices; it also records, per
case, the grayscale bounds in effect while that case is processed
(the loop body never assigns `opt.global_min`/`opt.global_max`). -/
def runCases (opt : Opt) : List Nat → FS → FS × List (Int × Int)
  | [], fs => (fs, [])
  | i :: is, fs =>
      let r := runCases opt is (testCase opt i fs)
      (r.1, (opt.global_min, opt.global_max) :: r.2)

/-- The assignments `test` performs on the configuration before the case
loop (`src/atme.py:111-126`): `opt.isTrain = False`, the two derived
directory fields, and — iff both grayscale bounds are 0 — the overwrite of
`opt.global_min`/`opt.global_max` with the pair computed by
`find_grayscale_limits` (an external collaborator, passed in here as
`computed`). -/
def testSetup (opt : Opt) (computed : Int × Int) : Opt :=
  let opt1 : Opt :=
    { opt with
        isTrain := false
        save_dir := pjoin opt.main_root (pjoin opt.model_root opt.exp_name)
        data_dir := pjoin opt.main_root (pjoin opt.model_root opt.data_name) }
  if opt1.global_min = 0 ∧ opt1.global_max = 0 then
    { opt1 with global_min := computed.1, global_max := computed.2 }
  else opt1

/-- Result of a `test` run: the final configuration object, the
filesystem, the per-case bounds actually used, and how many times the
grayscale range was recomputed. -/
structure TestRun where
  opt : Opt
  fs : FS
  boundsUsed : List (Int × Int)
  recomputeCount : Nat
deriving DecidableEq, Repr

/-- The whole of `test(opt)` (`src/atme.py:110-158`) over a manifest of
`n` cases, observed through its configuration, filesystem, and bounds
usage.  `find_grayscale_limits` runs (once, in the prologue) iff both
configured bounds are zero. -/
def runTest (opt : Opt) (computed : Int × Int) (n : Nat) : TestRun :=
  let opt1 := testSetup opt computed
  let r := runCases opt1 (List.range n) emptyFS
  { opt := opt1
    fs := r.1
    boundsUsed := r.2
    recomputeCount := if opt.global_min = 0 ∧ opt.global_max = 0 then 1 else 0 }

/-- Python's `str.split(sep)` for a one-character separator, on the
character list: `''.split(',') == ['']`, and every separator occurrence
opens a new (possibly empty) piece. -/
def splitOnChar (c : Char) : List Char → List (List Char)
  | [] => [[]]
  | x :: xs =>
      match splitOnChar c xs with
      | [] => if x = c then [[], []] else [[x]]
      | h :: t => if x = c then [] :: h :: t else (x :: h) :: t

/-- Digit accumulator for `intOfChars`. -/
def natOfDigitsAux : List Char → Nat → Option Nat
  | [], n => some n
  | c :: cs, n =>
      if c.isDigit then natOfDigitsAux cs (n * 10 + (c.toNat - 48)) else none

/-- Python's `int(str)` on a canonical (unpadded) literal: an optional
sign followed by at least one decimal digit; anything else raises
`ValueError`, modeled as `none`. -/
def intOfChars : List Char → Option Int
  | [] => none
  | '-' :: [] => none
  | '+' :: [] => none
  | '-' :: c :: cs => (natOfDigitsAux (c :: cs) 0).map (fun n => -(n : Int))
  | '+' :: c :: cs => (natOfDigitsAux (c :: cs) 0).map (fun n => (n : Int))
  | c :: cs => (natOfDigitsAux (c :: cs) 0).map (fun n => (n : Int))

/-- The gpu-id loop of `SimpleOptions.parse`
(`src/options/simple_options.py:95-100`, identically
`src/options/base_options.py:106-111`): each comma-separated piece goes
through `int(...)` — which raises on a malformed piece, aborting the
parse — and non-negative values are appended in order. -/
def gpuLoop : List (List Char) → List Int → Option (List Int)
  | [], acc => some acc
  | p :: ps, acc =>
      match intOfChars p with
      | none => none
      | some id => gpuLoop ps (if 0 ≤ id then acc ++ [id] else acc)

/-- The gpu-id processing of `parse`: split the configured `--gpu_ids`
string on `','` and run the filter loop. -/
def parseGpuIds (s : String) : Option (List Int) :=
  gpuLoop (splitOnChar ',' s.data) []

/-- All-or-nothing integer conversion of the comma-separated pieces, the
reference point for what `parseGpuIds` keeps: the list of integers the
input string denotes, or `none` if any piece is malformed. -/
def parsePieces : List (List Char) → Option (List Int)
  | [] => some []
  | p :: ps =>
      match intOfChars p, parsePieces ps with
      | some v, some vs => some (v :: vs)
      | _, _ => none

/-- Lines 101-102 of `src/options/simple_options.py`:
`torch.cuda.set_device(opt.gpu_ids[0])` runs iff the parsed list is
non-empty, so the selected device is the head of the list when present. -/
def selectedDevice (ids : List Int) : Option Int := ids.head?

theorem fillVol_shape (fakeB : Nat → Tensor4) :
    ∀ (l : List (Nat × Nat)) (v : Tensor3), (fillVol fakeB l v).shape = v.shape := by
  intro l
  induction l with
  | nil => intro v; rfl
  | cons p rest ih =>
      intro v
      obtain ⟨j, d⟩ := p
      simpa [fillVol, setSlice] using ih _

theorem fillVol_data_lt (fakeB : Nat → Tensor4) :
    ∀ (ds : List Nat) (k : Nat) (v : Tensor3) (j x y : Nat), j < k →
      (fillVol fakeB (enumF k ds) v).data j x y = v.data j x y := by
  intro ds
  induction ds with
  | nil => intro k v j x y _; rfl
  | cons d rest ih =>
      intro k v j x y h
      simp only [enumF, fillVol]
      rw [ih (k + 1) _ j x y (Nat.lt_succ_of_lt h)]
      simp [setSlice, Nat.ne_of_lt h]

theorem fillVol_data_get (fakeB : Nat → Tensor4) :
    ∀ (ds : List Nat) (k : Nat) (v : Tensor3) (j : Nat) (h : j < ds.length) (x y : Nat),
      (fillVol fakeB (enumF k ds) v).data (k + j) x y
        = (fakeB (ds.get ⟨j, h⟩)).data 0 0 x y := by
  intro ds
  induction ds with
  | nil => intro k v j h; exact absurd h (Nat.not_lt_zero j)
  | cons d rest ih =>
      intro k v j h x y
      match j with
      | 0 =>
          simp only [enumF, fillVol, Nat.add_zero]
          rw [fillVol_data_lt fakeB rest (k + 1) _ k x y (Nat.lt_succ_self k)]
          simp [setSlice]
      | j' + 1 =>
          simp only [enumF, fillVol]
          have hk : k + (j' + 1) = (k + 1) + j' := by omega
          rw [hk, ih (k + 1) _ j' (Nat.lt_of_succ_lt_succ h) x y]
          rfl

/-- C1: in the evaluation loop, for a case whose per-case dataset yields
`S` slices, the volume allocated before the slice loop has shape
`(S, vol_cube_dim, vol_cube_dim)` and is zero-initialized, and after the
slice loop position `j` of the volume equals the first-channel,
first-batch-element 2D inference output on slice `j`, for every
`j < S` (`src/atme.py:140-144`). -/
theorem C1_eval_volume (D : Nat) (fakeB : Nat → Tensor4) (ds : List Nat) :
    (zeros3 (ds.length, D, D)).shape = (ds.length, D, D) ∧
    (∀ j x y, (zeros3 (ds.length, D, D)).data j x y = 0) ∧
    (runCaseVol D fakeB ds).shape = (ds.length, D, D) ∧
    ∀ (j : Nat) (h : j < ds.length) (x y : Nat),
      (runCaseVol D fakeB ds).data j x y = (fakeB (ds.get ⟨j, h⟩)).data 0 0 x y := by
  refine ⟨rfl, fun _ _ _ => rfl, fillVol_shape fakeB _ _, ?_⟩
  intro j h x y
  have hmain := fillVol_data_get fakeB ds 0 (zeros3 (ds.length, D, D)) j h x y
  rw [Nat.zero_add] at hmain
  exact hmain

/-- A concrete abstract model output used to witness C1: the entry of
`fake_B` at position `(a, c, x, y)` for input slice `d` is
`d + a + c + x + y`. -/
def fbW : Nat → Tensor4 := fun d => ⟨fun a c x y => Int.ofNat (d + a + c + x + y)⟩

/-- Witness for C1: on the two-slice case `[5, 7]` with cube dimension 3,
position 1 of the reconstructed volume holds the inference output on
slice 7. -/
theorem C1_eval_volume_witness :
    1 < ([5, 7] : List Nat).length ∧ (runCaseVol 3 fbW [5, 7]).data 1 0 2 = 9 := by
  refine ⟨by decide, ?_⟩
  have h := (C1_eval_volume 3 fbW [5, 7]).2.2.2 1 (by decide) 0 2
  rw [h]
  decide

theorem runCases_bounds (opt : Opt) :
    ∀ (is : List Nat) (fs : FS),
      (runCases opt is fs).2 = List.replicate is.length (opt.global_min, opt.global_max) := by
  intro is
  induction is with
  | nil => intro fs; rfl
  | cons i rest ih => intro fs; simp [runCases, ih, List.replicate_succ]

/-- C7: at evaluation start the global grayscale range is recomputed from
the manifest iff both `global_min` and `global_max` are 0; the recompute
happens at most once, in the prologue, and the resulting bounds are the
ones in effect, unchanged, for every case of the run
(`src/atme.py:125-128`). -/
theorem C7_global_range (opt : Opt) (computed : Int × Int) (n : Nat) :
    ((testSetup opt computed).global_min, (testSetup opt computed).global_max)
      = (if opt.global_min = 0 ∧ opt.global_max = 0 then computed
         else (opt.global_min, opt.global_max)) ∧
    (runTest opt computed n).boundsUsed
      = List.replicate n
          ((testSetup opt computed).global_min, (testSetup opt computed).global_max) ∧
    (runTest opt computed n).recomputeCount
      = (if opt.global_min = 0 ∧ opt.global_max = 0 then 1 else 0) ∧
    (runTest opt computed n).recomputeCount ≤ 1 := by
  refine ⟨?_, ?_, rfl, ?_⟩
  · by_cases h : opt.global_min = 0 ∧ opt.global_max = 0 <;>
      simp [testSetup, h]
  · show (runCases (testSetup opt computed) (List.range n) emptyFS).2 = _
    rw [runCases_bounds, List.length_range]
  · show (if opt.global_min = 0 ∧ opt.global_max = 0 then 1 else 0) ≤ 1
    split <;> omega

theorem gpuLoop_eq :
    ∀ (ps : List (List Char)) (acc ints : List Int), parsePieces ps = some ints →
      gpuLoop ps acc = some (acc ++ ints.filter (fun x => decide (0 ≤ x))) := by
  intro ps
  induction ps with
  | nil =>
      intro acc ints h
      simp only [parsePieces, Option.some_inj] at h
      simp [gpuLoop, ← h]
  | cons p rest ih =>
      intro acc ints h
      simp only [parsePieces] at h
      cases hp : intOfChars p with
      | none => rw [hp] at h; exact absurd h (by simp)
      | some v =>
          rw [hp] at h
          cases hr : parsePieces rest with
          | none => rw [hr] at h; exact absurd h (by simp)
          | some vs =>
              rw [hr] at h
              simp only [Option.some_inj] at h
              subst h
              simp only [gpuLoop, hp]
              rw [ih _ vs hr]
              by_cases hv : 0 ≤ v <;>
                simp [List.filter_cons, hv, List.append_assoc]

/-- C10: after `parse` returns, `gpu_ids` is exactly the list of
non-negative integers among the comma-separated pieces of the input
string, in their original order with negative entries dropped; for the
input `"-1"` the list is empty, and CUDA device selection (which runs
only on a non-empty list, taking its head) selects nothing
(`src/options/simple_options.py:94-102`,
`src/options/base_options.py:105-113`). -/
theorem C10_gpu_ids :
    (∀ (s : String) (ints : List Int),
        parsePieces (splitOnChar ',' s.data) = some ints →
        parseGpuIds s = some (ints.filter (fun x => decide (0 ≤ x)))) ∧
    parseGpuIds "-1" = some [] ∧
    (∀ ids : List Int, selectedDevice ids = none ↔ ids = []) := by
  refine ⟨?_, by decide, ?_⟩
  · intro s ints h
    exact gpuLoop_eq _ [] ints h
  · intro ids
    exact List.head?_eq_none_iff

/-- Witness for C10: on the input `"0,2,-1,5"` every piece parses, and the
resulting list keeps exactly the non-negative entries in order. -/
theorem C10_gpu_ids_witness :
    parsePieces (splitOnChar ',' ("0,2,-1,5" : String).data) = some [0, 2, -1, 5] ∧
    parseGpuIds "0,2,-1,5" = some [0, 2, 5] := by
  refine ⟨by decide, ?_⟩
  have h := C10_gpu_ids.1 "0,2,-1,5" [0, 2, -1, 5] (by decide)
  rw [h]
  decide

theorem mkdirIfAbsent_of_mem (fs : FS) (d : String) (h : d ∈ fs.dirs) :
    mkdirIfAbsent fs d = fs := by
  simp [mkdirIfAbsent, h]

theorem mkdirIfAbsent_files (fs : FS) (d : String) :
    (mkdirIfAbsent fs d).files = fs.files := by
  simp only [mkdirIfAbsent]
  split <;> rfl

theorem mkdirIfAbsent_dirs_mono (fs : FS) (d d' : String) (h : d ∈ fs.dirs) :
    d ∈ (mkdirIfAbsent fs d').dirs := by
  simp only [mkdirIfAbsent]
  split
  · exact h
  · simp [h]

theorem mkdirIfAbsent_self (fs : FS) (d : String) :
    d ∈ (mkdirIfAbsent fs d).dirs := by
  simp only [mkdirIfAbsent]
  split <;> simp_all

theorem testCase_dirs (opt : Opt) (j : Nat) (fs : FS) :
    (testCase opt j fs).dirs = (mkdirIfAbsent fs (caseDir opt j)).dirs := by
  simp only [testCase]
  split <;> rfl

theorem testCase_files (opt : Opt) (j : Nat) (fs : FS) :
    (testCase opt j fs).files
      = fs.files ++ [(caseDir opt j, "atme_vol.pt")]
        ++ (if opt.save_nifti = true then [(caseDir opt j, "atme_vol.nii.gz")]
            else []) := by
  simp only [testCase]
  split <;> rename_i hs <;> simp [mkdirIfAbsent_files, hs]

theorem testCase_dirs_mono (opt : Opt) (j : Nat) (fs : FS) (d : String)
    (h : d ∈ fs.dirs) : d ∈ (testCase opt j fs).dirs := by
  rw [testCase_dirs]
  exact mkdirIfAbsent_dirs_mono fs d _ h

theorem testCase_files_mono (opt : Opt) (j : Nat) (fs : FS) (p : String × String)
    (h : p ∈ fs.files) : p ∈ (testCase opt j fs).files := by
  rw [testCase_files]
  simp [h]

theorem testCase_self_dir (opt : Opt) (j : Nat) (fs : FS) :
    caseDir opt j ∈ (testCase opt j fs).dirs := by
  rw [testCase_dirs]
  exact mkdirIfAbsent_self fs _

theorem testCase_self_pt (opt : Opt) (j : Nat) (fs : FS) :
    (caseDir opt j, "atme_vol.pt") ∈ (testCase opt j fs).files := by
  rw [testCase_files]
  simp

theorem testCase_self_nii (opt : Opt) (j : Nat) (fs : FS)
    (h : opt.save_nifti = true) :
    (caseDir opt j, "atme_vol.nii.gz") ∈ (testCase opt j fs).files := by
  rw [testCase_files]
  simp [h]

theorem runCases_dirs_mono (opt : Opt) :
    ∀ (is : List Nat) (fs : FS) (d : String), d ∈ fs.dirs →
      d ∈ (runCases opt is fs).1.dirs := by
  intro is
  induction is with
  | nil => intro fs d h; exact h
  | cons i rest ih =>
      intro fs d h
      exact ih (testCase opt i fs) d (testCase_dirs_mono opt i fs d h)

theorem runCases_files_mono (opt : Opt) :
    ∀ (is : List Nat) (fs : FS) (p : String × String), p ∈ fs.files →
      p ∈ (runCases opt is fs).1.files := by
  intro is
  induction is with
  | nil => intro fs p h; exact h
  | cons i rest ih =>
      intro fs p h
      exact ih (testCase opt i fs) p (testCase_files_mono opt i fs p h)

theorem runCases_mem (opt : Opt) :
    ∀ (is : List Nat) (fs : FS) (i : Nat), i ∈ is →
      caseDir opt i ∈ (runCases opt is fs).1.dirs ∧
      (caseDir opt i, "atme_vol.pt") ∈ (runCases opt is fs).1.files ∧
      (opt.save_nifti = true →
        (caseDir opt i, "atme_vol.nii.gz") ∈ (runCases opt is fs).1.files) := by
  intro is
  induction is with
  | nil => intro fs i h; exact absurd h (List.not_mem_nil i)
  | cons j rest ih =>
      intro fs i h
      rcases List.mem_cons.mp h with h | h
      · subst h
        refine ⟨?_, ?_, fun hn => ?_⟩
        · exact runCases_dirs_mono opt rest _ _ (testCase_self_dir opt i fs)
        · exact runCases_files_mono opt rest _ _ (testCase_self_pt opt i fs)
        · exact runCases_files_mono opt rest _ _ (testCase_self_nii opt i fs hn)
      · exact ih (testCase opt j fs) i h

theorem testCase_files_shape (opt : Opt) (j : Nat) (fs : FS)
    (h : opt.save_nifti = false) (p : String × String)
    (hp : p ∈ (testCase opt j fs).files) :
    p ∈ fs.files ∨ p.2 = "atme_vol.pt" := by
  rw [testCase_files] at hp
  simp only [h, Bool.false_eq_true, if_false, List.append_nil, List.mem_append,
    List.mem_singleton] at hp
  rcases hp with hp | hp
  · exact Or.inl hp
  · subst hp
    exact Or.inr rfl

theorem runCases_no_nii (opt : Opt) (h : opt.save_nifti = false) :
    ∀ (is : List Nat) (fs : FS) (p : String × String),
      p ∈ (runCases opt is fs).1.files → p ∈ fs.files ∨ p.2 = "atme_vol.pt" := by
  intro is
  induction is with
  | nil => intro fs p hp; exact Or.inl hp
  | cons j rest ih =>
      intro fs p hp
      rcases ih (testCase opt j fs) p hp with hp2 | hp2
      · exact testCase_files_shape opt j fs h p hp2
      · exact Or.inr hp2

/-- C8: for every case index `i` processed by the evaluation loop, the
per-case output directory `case_<i>` is created only if absent (creation
is idempotent), and after the case completes it contains `atme_vol.pt`
always, and `atme_vol.nii.gz` iff `save_nifti` is set
(`src/atme.py:131-158`). -/
theorem C8_case_outputs (opt : Opt) (computed : Int × Int) (n i : Nat) (hi : i < n) :
    caseDir (testSetup opt computed) i ∈ (runTest opt computed n).fs.dirs ∧
    (caseDir (testSetup opt computed) i, "atme_vol.pt")
      ∈ (runTest opt computed n).fs.files ∧
    ((caseDir (testSetup opt computed) i, "atme_vol.nii.gz")
        ∈ (runTest opt computed n).fs.files ↔ opt.save_nifti = true) ∧
    (∀ (fs : FS) (d : String), d ∈ fs.dirs → mkdirIfAbsent fs d = fs) := by
  have hsn : (testSetup opt computed).save_nifti = opt.save_nifti := by
    simp only [testSetup]
    split <;> rfl
  have hmem := runCases_mem (testSetup opt computed) (List.range n) emptyFS i
    (List.mem_range.mpr hi)
  refine ⟨hmem.1, hmem.2.1, ⟨?_, fun hn => hmem.2.2 (hsn.trans hn)⟩, mkdirIfAbsent_of_mem⟩
  intro hin
  by_cases hsave : opt.save_nifti = true
  · exact hsave
  · exfalso
    have hfalse : (testSetup opt computed).save_nifti = false := by
      rw [hsn]; exact Bool.not_eq_true _ |>.mp hsave
    rcases runCases_no_nii (testSetup opt computed) hfalse (List.range n) emptyFS _ hin with
      hc | hc
    · exact absurd hc (List.not_mem_nil _)
    · have hne : ("atme_vol.nii.gz" : String) = "atme_vol.pt" := hc
      exact absurd hne (by decide)

/-- Concrete configuration witnessing C8 and C6: two cases, `save_nifti`
enabled, both grayscale bounds zero. -/
def optW : Opt :=
  { isTrain := true, main_root := "outputs", model_root := "simple_output",
    exp_name := "runs", data_name := "data", save_dir := "outputs",
    data_dir := "outputs", epoch_count := 1, n_epochs := 2, n_epochs_decay := 0,
    batch_size := 1, display_freq := 400, update_html_freq := 1000,
    print_freq := 100, save_latest_freq := 1000000, save_epoch_freq := 5,
    save_by_iter := false, has_n_save_noisy := false, global_min := 0,
    global_max := 0, save_nifti := true, vol_cube_dim := 64 }

/-- Witness for C8: in a two-case run with `save_nifti` on, case 0's
directory exists and directory creation on an existing directory is the
identity. -/
theorem C8_case_outputs_witness :
    0 < 2 ∧
    caseDir (testSetup optW (3, 9)) 0 ∈ (runTest optW (3, 9) 2).fs.dirs ∧
    mkdirIfAbsent ⟨["x"], []⟩ "x" = ⟨["x"], []⟩ := by
  have h := C8_case_outputs optW (3, 9) 2 0 (by decide)
  exact ⟨by decide, h.1, h.2.2.2 ⟨["x"], []⟩ "x" (by decide)⟩

/-- The post-increment counter value recorded by a `stepDone` event. -/
def stepIterOf : Event → Option Nat
  | .stepDone t => some t
  | _ => none

/-- The counter value at which a `compute_visuals` cadence event fired. -/
def displayIterOf : Event → Option Nat
  | .display t => some t
  | _ => none

/-- The counter value at which a loss-printing cadence event fired. -/
def printIterOf : Event → Option Nat
  | .printLosses t => some t
  | _ => none

/-- The counter value at which a latest-checkpoint cadence event fired. -/
def latestIterOf : Event → Option Nat
  | .saveLatest t _ _ _ _ => some t
  | _ => none

/-- All post-step counter values of a trace, in order. -/
def stepIters (tr : List Event) : List Nat := tr.filterMap stepIterOf

/-- All `display_freq` firing counters of a trace, in order. -/
def displayIters (tr : List Event) : List Nat := tr.filterMap displayIterOf

/-- All `print_freq` firing counters of a trace, in order. -/
def printIters (tr : List Event) : List Nat := tr.filterMap printIterOf

/-- All `save_latest_freq` firing counters of a trace, in order. -/
def latestIters (tr : List Event) : List Nat := tr.filterMap latestIterOf

theorem filterMap_ite {α β : Type} (f : α → Option β) (c : Prop) [Decidable c]
    (a b : List α) :
    List.filterMap f (if c then a else b)
      = if c then List.filterMap f a else List.filterMap f b := by
  split <;> rfl

theorem stepIters_append (l1 l2 : List Event) :
    stepIters (l1 ++ l2) = stepIters l1 ++ stepIters l2 :=
  List.filterMap_append l1 l2 stepIterOf

theorem displayIters_append (l1 l2 : List Event) :
    displayIters (l1 ++ l2) = displayIters l1 ++ displayIters l2 :=
  List.filterMap_append l1 l2 displayIterOf

theorem printIters_append (l1 l2 : List Event) :
    printIters (l1 ++ l2) = printIters l1 ++ printIters l2 :=
  List.filterMap_append l1 l2 printIterOf

theorem latestIters_append (l1 l2 : List Event) :
    latestIters (l1 ++ l2) = latestIters l1 ++ latestIters l2 :=
  List.filterMap_append l1 l2 latestIterOf

theorem stepIters_batchEvents (opt : Opt) (e i t' : Nat) :
    stepIters (batchEvents opt e i t') = [t'] := by
  simp [stepIters, batchEvents, List.filterMap_append, filterMap_ite, stepIterOf]

theorem displayIters_batchEvents (opt : Opt) (e i t' : Nat) :
    displayIters (batchEvents opt e i t')
      = if t' % opt.display_freq = 0 then [t'] else [] := by
  simp [displayIters, batchEvents, List.filterMap_append, filterMap_ite, displayIterOf]

theorem printIters_batchEvents (opt : Opt) (e i t' : Nat) :
    printIters (batchEvents opt e i t')
      = if t' % opt.print_freq = 0 then [t'] else [] := by
  simp [printIters, batchEvents, List.filterMap_append, filterMap_ite, printIterOf]

theorem latestIters_batchEvents (opt : Opt) (e i t' : Nat) :
    latestIters (batchEvents opt e i t')
      = if t' % opt.save_latest_freq = 0 then [t'] else [] := by
  simp [latestIters, batchEvents, List.filterMap_append, filterMap_ite, latestIterOf]

theorem stepIters_epochHead (e : Nat) :
    stepIters [Event.vreset e, Event.updateLR e] = [] := rfl

theorem displayIters_epochHead (e : Nat) :
    displayIters [Event.vreset e, Event.updateLR e] = [] := rfl

theorem printIters_epochHead (e : Nat) :
    printIters [Event.vreset e, Event.updateLR e] = [] := rfl

theorem latestIters_epochHead (e : Nat) :
    latestIters [Event.vreset e, Event.updateLR e] = [] := rfl

theorem stepIters_epochTail (opt : Opt) (e : Nat) :
    stepIters (epochTail opt e) = [] := by
  simp [stepIters, epochTail, List.filterMap_append, filterMap_ite, stepIterOf]

theorem displayIters_epochTail (opt : Opt) (e : Nat) :
    displayIters (epochTail opt e) = [] := by
  simp [displayIters, epochTail, List.filterMap_append, filterMap_ite, displayIterOf]

theorem printIters_epochTail (opt : Opt) (e : Nat) :
    printIters (epochTail opt e) = [] := by
  simp [printIters, epochTail, List.filterMap_append, filterMap_ite, printIterOf]

theorem latestIters_epochTail (opt : Opt) (e : Nat) :
    latestIters (epochTail opt e) = [] := by
  simp [latestIters, epochTail, List.filterMap_append, filterMap_ite, latestIterOf]

/-- Loop invariant for the three iteration-counter cadences: each cadence
fired exactly at the recorded post-step counters that are exact multiples
of its frequency, the post-step counters are strictly increasing, and all
of them are bounded by the current counter. -/
def CadenceInv (opt : Opt) (s : TrainState) : Prop :=
  displayIters s.trace
      = (stepIters s.trace).filter (fun t => decide (t % opt.display_freq = 0)) ∧
  printIters s.trace
      = (stepIters s.trace).filter (fun t => decide (t % opt.print_freq = 0)) ∧
  latestIters s.trace
      = (stepIters s.trace).filter (fun t => decide (t % opt.save_latest_freq = 0)) ∧
  (stepIters s.trace).Sorted (· < ·) ∧
  ∀ x ∈ stepIters s.trace, x ≤ s.total_iters

theorem cadenceInv_batchStep (opt : Opt) (hB : 0 < opt.batch_size) (e i : Nat)
    (s : TrainState) (h : CadenceInv opt s) : CadenceInv opt (batchStep opt e i s) := by
  obtain ⟨hd, hp, hl, hs, hle⟩ := h
  have ht : (batchStep opt e i s).trace
      = s.trace ++ batchEvents opt e i (s.total_iters + opt.batch_size) := rfl
  have htot : (batchStep opt e i s).total_iters = s.total_iters + opt.batch_size := rfl
  refine ⟨?_, ?_, ?_, ?_, ?_⟩
  · rw [ht, displayIters_append, stepIters_append, displayIters_batchEvents,
      stepIters_batchEvents, List.filter_append, hd]
    congr 1
    by_cases hc : (s.total_iters + opt.batch_size) % opt.display_freq = 0 <;>
      simp [hc]
  · rw [ht, printIters_append, stepIters_append, printIters_batchEvents,
      stepIters_batchEvents, List.filter_append, hp]
    congr 1
    by_cases hc : (s.total_iters + opt.batch_size) % opt.print_freq = 0 <;>
      simp [hc]
  · rw [ht, latestIters_append, stepIters_append, latestIters_batchEvents,
      stepIters_batchEvents, List.filter_append, hl]
    congr 1
    by_cases hc : (s.total_iters + opt.batch_size) % opt.save_latest_freq = 0 <;>
      simp [hc]
  · rw [ht, stepIters_append, stepIters_batchEvents]
    refine List.pairwise_append.mpr ⟨hs, List.pairwise_singleton _ _, ?_⟩
    intro a ha b hb
    rw [List.mem_singleton] at hb
    subst hb
    exact Nat.lt_of_le_of_lt (hle a ha) (Nat.lt_add_of_pos_right hB)
  · rw [ht, htot, stepIters_append, stepIters_batchEvents]
    intro x hx
    rcases List.mem_append.mp hx with hx | hx
    · exact Nat.le_trans (hle x hx) (Nat.le_add_right _ _)
    · rw [List.mem_singleton] at hx
      subst hx
      exact Nat.le_refl _

theorem cadenceInv_append (opt : Opt) (s : TrainState) (evs : List Event)
    (h0 : stepIters evs = []) (h1 : displayIters evs = [])
    (h2 : printIters evs = []) (h3 : latestIters evs = [])
    (h : CadenceInv opt s) :
    CadenceInv opt { s with trace := s.trace ++ evs } := by
  obtain ⟨hd, hp, hl, hs, hle⟩ := h
  refine ⟨?_, ?_, ?_, ?_, ?_⟩ <;>
    simp only [stepIters_append, displayIters_append, printIters_append,
      latestIters_append, h0, h1, h2, h3, List.append_nil]
  · exact hd
  · exact hp
  · exact hl
  · exact hs
  · exact hle

theorem cadenceInv_runBatches (opt : Opt) (hB : 0 < opt.batch_size) (e : Nat) :
    ∀ (is : List Nat) (s : TrainState), CadenceInv opt s →
      CadenceInv opt (runBatches opt e is s) := by
  intro is
  induction is with
  | nil => intro s h; exact h
  | cons i rest ih =>
      intro s h
      exact ih _ (cadenceInv_batchStep opt hB e i s h)

theorem cadenceInv_runEpoch (opt : Opt) (hB : 0 < opt.batch_size) (N e : Nat)
    (s : TrainState) (h : CadenceInv opt s) : CadenceInv opt (runEpoch opt N e s) := by
  unfold runEpoch
  refine cadenceInv_append opt _ _ (stepIters_epochTail opt e)
    (displayIters_epochTail opt e) (printIters_epochTail opt e)
    (latestIters_epochTail opt e) ?_
  refine cadenceInv_runBatches opt hB e (List.range N) _ ?_
  exact cadenceInv_append opt s _ (stepIters_epochHead e) (displayIters_epochHead e)
    (printIters_epochHead e) (latestIters_epochHead e) h

theorem cadenceInv_runEpochList (opt : Opt) (hB : 0 < opt.batch_size) (N : Nat) :
    ∀ (es : List Nat) (s : TrainState), CadenceInv opt s →
      CadenceInv opt (runEpochList opt N es s) := by
  intro es
  induction es with
  | nil => intro s h; exact h
  | cons e rest ih =>
      intro s h
      exact ih _ (cadenceInv_runEpoch opt hB N e s h)

theorem cadenceInv_init (opt : Opt) : CadenceInv opt initTrainState := by
  refine ⟨rfl, rfl, rfl, List.sorted_nil, ?_⟩
  intro x hx
  exact absurd hx (List.not_mem_nil x)

/-- C2: in the training loop, for each cadence frequency `f` among
`display_freq`, `print_freq`, `save_latest_freq`, and for every value `t`
taken by the global iteration counter after a batch step, the
corresponding cadence side effect fires at that step iff `t mod f = 0`;
the firing counters are exactly the qualifying post-step counters, each
occurring exactly once (no duplicates), in strictly increasing order
(`src/atme.py:76-94`). -/
theorem C2_cadence (opt : Opt) (N : Nat) (hB : 0 < opt.batch_size) :
    displayIters (runTrain opt N).trace
      = (stepIters (runTrain opt N).trace).filter
          (fun t => decide (t % opt.display_freq = 0)) ∧
    printIters (runTrain opt N).trace
      = (stepIters (runTrain opt N).trace).filter
          (fun t => decide (t % opt.print_freq = 0)) ∧
    latestIters (runTrain opt N).trace
      = (stepIters (runTrain opt N).trace).filter
          (fun t => decide (t % opt.save_latest_freq = 0)) ∧
    (stepIters (runTrain opt N).trace).Sorted (· < ·) ∧
    (displayIters (runTrain opt N).trace).Sorted (· < ·) ∧
    (printIters (runTrain opt N).trace).Sorted (· < ·) ∧
    (latestIters (runTrain opt N).trace).Sorted (· < ·) ∧
    (displayIters (runTrain opt N).trace).Nodup ∧
    (printIters (runTrain opt N).trace).Nodup ∧
    (latestIters (runTrain opt N).trace).Nodup := by
  have hinv := cadenceInv_runEpochList (trainSetup opt) hB N
    (trainEpochs (trainSetup opt)) initTrainState (cadenceInv_init _)
  obtain ⟨hd, hp, hl, hs, _⟩ := hinv
  have hds : (displayIters (runTrain opt N).trace).Sorted (· < ·) := by
    rw [show displayIters (runTrain opt N).trace = _ from hd]
    exact hs.filter _
  have hps : (printIters (runTrain opt N).trace).Sorted (· < ·) := by
    rw [show printIters (runTrain opt N).trace = _ from hp]
    exact hs.filter _
  have hls : (latestIters (runTrain opt N).trace).Sorted (· < ·) := by
    rw [show latestIters (runTrain opt N).trace = _ from hl]
    exact hs.filter _
  exact ⟨hd, hp, hl, hs, hds, hps, hls,
    hds.imp (fun hlt => Nat.ne_of_lt hlt),
    hps.imp (fun hlt => Nat.ne_of_lt hlt),
    hls.imp (fun hlt => Nat.ne_of_lt hlt)⟩

/-- Witness for C2 at the concrete scenario-A configuration with a
three-item dataset. -/
theorem C2_cadence_witness :
    0 < optW.batch_size ∧
    displayIters (runTrain optW 3).trace
      = (stepIters (runTrain optW 3).trace).filter
          (fun t => decide (t % optW.display_freq = 0)) ∧
    (stepIters (runTrain optW 3).trace).Sorted (· < ·) := by
  have h := C2_cadence optW 3 (by decide)
  exact ⟨by decide, h.1, h.2.2.2.1⟩

/-- Recognizer for the epoch-`e` learning-rate update and batch-feeding
events (`update_learning_rate`, `set_input`, `optimize_parameters`). -/
def lrInputEv (e : Nat) : Event → Bool
  | .updateLR e' => e' == e
  | .setInput e' _ _ => e' == e
  | .optimize e' _ => e' == e
  | _ => false

/-- The `set_input`/`optimize_parameters` events of one epoch over an
`N`-batch dataset, in program order. -/
def epochBody (e : Nat) (w : Bool) (N : Nat) : List Event :=
  (List.range N).flatMap (fun i => [Event.setInput e i w, Event.optimize e i])

theorem filter_ite {α : Type} (p : α → Bool) (c : Prop) [Decidable c]
    (a b : List α) :
    List.filter p (if c then a else b)
      = if c then a.filter p else b.filter p := by
  split <;> rfl

theorem filter_lrInput_batchEvents (opt : Opt) (e' e i t' : Nat) :
    (batchEvents opt e' i t').filter (lrInputEv e)
      = if e' = e then
          [Event.setInput e' i opt.has_n_save_noisy, Event.optimize e' i]
        else [] := by
  simp only [batchEvents, List.filter_append, filter_ite, List.filter_cons,
    List.filter_nil, lrInputEv]
  by_cases he : e' = e <;> simp [he]

theorem filter_lrInput_runBatches (opt : Opt) (e' e : Nat) :
    ∀ (is : List Nat) (s : TrainState),
      (runBatches opt e' is s).trace.filter (lrInputEv e)
        = s.trace.filter (lrInputEv e)
          ++ (if e' = e then
                is.flatMap
                  (fun i => [Event.setInput e' i opt.has_n_save_noisy,
                             Event.optimize e' i])
              else []) := by
  intro is
  induction is with
  | nil => intro s; simp [runBatches]
  | cons i rest ih =>
      intro s
      simp only [runBatches]
      rw [ih]
      have htr : (batchStep opt e' i s).trace
          = s.trace ++ batchEvents opt e' i (s.total_iters + opt.batch_size) := rfl
      rw [htr, List.filter_append, filter_lrInput_batchEvents]
      by_cases he : e' = e <;> simp [he, List.flatMap_cons]

theorem filter_lrInput_runEpoch (opt : Opt) (N e' e : Nat) (s : TrainState) :
    (runEpoch opt N e' s).trace.filter (lrInputEv e)
      = s.trace.filter (lrInputEv e)
        ++ (if e' = e then
              Event.updateLR e' :: epochBody e' opt.has_n_save_noisy N
            else []) := by
  unfold runEpoch
  rw [List.filter_append]
  have htail : (epochTail opt e').filter (lrInputEv e) = [] := by
    simp [epochTail, List.filter_append, filter_ite, lrInputEv]
  rw [htail, List.append_nil, filter_lrInput_runBatches, List.filter_append]
  have hhead : ([Event.vreset e', Event.updateLR e']).filter (lrInputEv e)
      = if e' = e then [Event.updateLR e'] else [] := by
    by_cases he : e' = e <;> simp [lrInputEv, he]
  rw [hhead]
  by_cases he : e' = e <;> simp [he, epochBody]

theorem filter_lrInput_runEpochList_not_mem (opt : Opt) (N e : Nat) :
    ∀ (es : List Nat) (s : TrainState), e ∉ es →
      (runEpochList opt N es s).trace.filter (lrInputEv e)
        = s.trace.filter (lrInputEv e) := by
  intro es
  induction es with
  | nil => intro s _; rfl
  | cons e' rest ih =>
      intro s h
      have he' : e' ≠ e := fun hc => h (hc ▸ List.mem_cons_self e' rest)
      simp only [runEpochList]
      rw [ih _ (fun hc => h (List.mem_cons_of_mem e' hc)), filter_lrInput_runEpoch]
      simp [he']

theorem filter_lrInput_runEpochList_mem (opt : Opt) (N e : Nat) :
    ∀ (es : List Nat) (s : TrainState), e ∈ es → es.Nodup →
      (runEpochList opt N es s).trace.filter (lrInputEv e)
        = s.trace.filter (lrInputEv e)
          ++ (Event.updateLR e :: epochBody e opt.has_n_save_noisy N) := by
  intro es
  induction es with
  | nil => intro s h _; exact absurd h (List.not_mem_nil e)
  | cons e' rest ih =>
      intro s h hnd
      rcases List.mem_cons.mp h with he | he
      · subst he
        simp only [runEpochList]
        rw [filter_lrInput_runEpochList_not_mem opt N e rest _
          (List.nodup_cons.mp hnd).1, filter_lrInput_runEpoch]
        simp
      · have he' : e' ≠ e := by
          intro hc
          subst hc
          exact (List.nodup_cons.mp hnd).1 he
        simp only [runEpochList]
        rw [ih _ he (List.nodup_cons.mp hnd).2, filter_lrInput_runEpoch]
        simp [he']

/-- C3: for every epoch `e` in `[epoch_count, n_epochs + n_epochs_decay]`,
the model's learning-rate update is invoked exactly once during that
epoch, and before any batch of that epoch reaches
`set_input`/`optimize_parameters`: restricted to epoch-`e` lr/input
events, the whole run's trace is exactly `updateLR` followed by the `N`
batch feedings (`src/atme.py:57-74`). -/
theorem C3_lr_update (opt : Opt) (N e : Nat) (he : e ∈ trainEpochs opt) :
    (runTrain opt N).trace.filter (lrInputEv e)
      = Event.updateLR e :: epochBody e opt.has_n_save_noisy N := by
  have hnd : (trainEpochs (trainSetup opt)).Nodup := by
    unfold trainEpochs
    exact List.nodup_range' _ _
  have h := filter_lrInput_runEpochList_mem (trainSetup opt) N e
    (trainEpochs (trainSetup opt)) initTrainState he hnd
  simpa using h

/-- Witness for C3: epoch 1 of the scenario-A configuration. -/
theorem C3_lr_update_witness :
    (1 ∈ trainEpochs optW) ∧
    (runTrain optW 3).trace.filter (lrInputEv 1)
      = Event.updateLR 1 :: epochBody 1 optW.has_n_save_noisy 3 :=
  ⟨by decide, C3_lr_update optW 3 1 (by decide)⟩

/-- Safety invariant for the `t_data` variable: no read of an unassigned
variable has happened, and `t_data` is assigned unless the loop has not
yet run a single batch. -/
def SafeInv (s : TrainState) : Prop :=
  s.read_before_assign = false ∧
    ((s.t_data.isSome = true) ∨ (s.total_iters = 0 ∧ s.t_data = none))

theorem safeInv_batchStep (opt : Opt) (e i : Nat) (s : TrainState)
    (h : SafeInv s) : SafeInv (batchStep opt e i s) := by
  obtain ⟨hb, hcase⟩ := h
  have htd : (tdataUpdate opt.print_freq s.total_iters s.t_data).isSome = true := by
    rcases hcase with hsome | ⟨hz, _⟩
    · unfold tdataUpdate
      split
      · rfl
      · exact hsome
    · unfold tdataUpdate
      rw [hz]
      simp
  obtain ⟨v, hv⟩ := Option.isSome_iff_exists.mp htd
  constructor
  · have hr : (batchStep opt e i s).read_before_assign
        = (s.read_before_assign
            || (decide ((s.total_iters + opt.batch_size) % opt.print_freq = 0)
                && (tdataUpdate opt.print_freq s.total_iters s.t_data).isNone)) := rfl
    rw [hr, hb, hv]
    simp
  · exact Or.inl htd

theorem safeInv_trace (s : TrainState) (tr : List Event) (h : SafeInv s) :
    SafeInv { s with trace := tr } := h

theorem safeInv_runBatches (opt : Opt) (e : Nat) :
    ∀ (is : List Nat) (s : TrainState), SafeInv s →
      SafeInv (runBatches opt e is s) := by
  intro is
  induction is with
  | nil => intro s h; exact h
  | cons i rest ih =>
      intro s h
      exact ih _ (safeInv_batchStep opt e i s h)

theorem safeInv_runEpoch (opt : Opt) (N e : Nat) (s : TrainState)
    (h : SafeInv s) : SafeInv (runEpoch opt N e s) := by
  unfold runEpoch
  exact safeInv_trace _ _ (safeInv_runBatches opt e (List.range N) _
    (safeInv_trace _ _ h))

theorem safeInv_runEpochList (opt : Opt) (N : Nat) :
    ∀ (es : List Nat) (s : TrainState), SafeInv s →
      SafeInv (runEpochList opt N es s) := by
  intro es
  induction es with
  | nil => intro s h; exact h
  | cons e rest ih =>
      intro s h
      exact ih _ (safeInv_runEpoch opt N e s h)

/-- C9: whenever the post-increment `print_freq` branch reads `t_data`,
the variable has already been assigned: the pre-increment guard
necessarily fires on the run's first batch (counter 0 is a multiple of
every frequency), so no use-before-assignment is reachable
(`src/atme.py:63-84`). -/
theorem C9_t_data_safety (opt : Opt) (N : Nat) :
    (runTrain opt N).read_before_assign = false ∧
    ∀ td : Option Nat, tdataUpdate opt.print_freq 0 td = some 0 := by
  constructor
  · exact (safeInv_runEpochList (trainSetup opt) N (trainEpochs (trainSetup opt))
      initTrainState ⟨rfl, Or.inr ⟨rfl, rfl⟩⟩).1
  · intro td
    unfold tdataUpdate
    simp

/-- Property of one event: if it is a latest-checkpoint save, its slice
choice is the one the code computes at `src/atme.py:93` for batch size
`B`. -/
def saveChoiceOk (B : Nat) : Event → Prop
  | .saveLatest _ _ i _ c => c = sliceNumChoice B i
  | _ => True

theorem saveChoiceOk_batchEvents (opt : Opt) (e i t' : Nat) :
    ∀ ev ∈ batchEvents opt e i t', saveChoiceOk opt.batch_size ev := by
  intro ev hev
  cases ev <;> try trivial
  rename_i t0 e0 i0 g0 c0
  show c0 = sliceNumChoice opt.batch_size i0
  by_cases h1 : t' % opt.display_freq = 0 <;>
    by_cases h2 : t' % opt.print_freq = 0 <;>
      by_cases h3 : t' % opt.save_latest_freq = 0 <;>
        simp only [batchEvents, h1, h2, h3, if_true, if_false, List.append_nil,
          List.nil_append, List.mem_append, List.mem_cons, List.mem_singleton,
          List.not_mem_nil, or_false, false_or, Event.saveLatest.injEq,
          reduceCtorEq] at hev
  all_goals
    obtain ⟨_, _, hi, _, hc⟩ := hev
  all_goals
    subst hi
  all_goals
    exact hc

theorem saveChoiceOk_append (B : Nat) (l1 l2 : List Event)
    (h1 : ∀ ev ∈ l1, saveChoiceOk B ev) (h2 : ∀ ev ∈ l2, saveChoiceOk B ev) :
    ∀ ev ∈ l1 ++ l2, saveChoiceOk B ev := by
  intro ev hev
  rcases List.mem_append.mp hev with h | h
  · exact h1 ev h
  · exact h2 ev h

theorem saveChoiceOk_epochHead (B e : Nat) :
    ∀ ev ∈ [Event.vreset e, Event.updateLR e], saveChoiceOk B ev := by
  intro ev hev
  rcases List.mem_cons.mp hev with h | h
  · subst h; trivial
  · rw [List.mem_singleton] at h
    subst h; trivial

theorem saveChoiceOk_epochTail (B : Nat) (opt : Opt) (e : Nat) :
    ∀ ev ∈ epochTail opt e, saveChoiceOk B ev := by
  intro ev hev
  cases ev <;> try trivial
  by_cases h : e % opt.save_epoch_freq = 0 <;> simp [epochTail, h] at hev

theorem saveChoiceOk_runBatches (opt : Opt) (e : Nat) :
    ∀ (is : List Nat) (s : TrainState),
      (∀ ev ∈ s.trace, saveChoiceOk opt.batch_size ev) →
      ∀ ev ∈ (runBatches opt e is s).trace, saveChoiceOk opt.batch_size ev := by
  intro is
  induction is with
  | nil => intro s h; exact h
  | cons i rest ih =>
      intro s h
      refine ih _ ?_
      exact saveChoiceOk_append _ _ _ h (saveChoiceOk_batchEvents opt e i _)

theorem saveChoiceOk_runEpoch (opt : Opt) (N e : Nat) (s : TrainState)
    (h : ∀ ev ∈ s.trace, saveChoiceOk opt.batch_size ev) :
    ∀ ev ∈ (runEpoch opt N e s).trace, saveChoiceOk opt.batch_size ev := by
  unfold runEpoch
  refine saveChoiceOk_append _ _ _ ?_ (saveChoiceOk_epochTail _ opt e)
  refine saveChoiceOk_runBatches opt e (List.range N) _ ?_
  exact saveChoiceOk_append _ _ _ h (saveChoiceOk_epochHead _ e)

theorem saveChoiceOk_runEpochList (opt : Opt) (N : Nat) :
    ∀ (es : List Nat) (s : TrainState),
      (∀ ev ∈ s.trace, saveChoiceOk opt.batch_size ev) →
      ∀ ev ∈ (runEpochList opt N es s).trace, saveChoiceOk opt.batch_size ev := by
  intro es
  induction es with
  | nil => intro s h; exact h
  | cons e rest ih =>
      intro s h
      exact ih _ (saveChoiceOk_runEpoch opt N e s h)

theorem saveChoiceOk_runTrain (opt : Opt) (N : Nat) :
    ∀ ev ∈ (runTrain opt N).trace, saveChoiceOk opt.batch_size ev := by
  refine saveChoiceOk_runEpochList (trainSetup opt) N
    (trainEpochs (trainSetup opt)) initTrainState ?_
  intro ev hev
  exact absurd hev (List.not_mem_nil ev)

/-- Scenario used against C5: batch size 2, `save_latest_freq` 2,
one single-batch epoch, so the cadence fires at the first step. -/
def optC5 : Opt :=
  { optW with batch_size := 2, save_latest_freq := 2, n_epochs := 1 }

/-- Counterexample to C5 as stated: with batch size 2, the save-latest
cadence fires at counter 2 and the recorded slice draw is
`random.randint(0, 2)`, whose support contains 2 — the value
`batch_size` itself, which the claim says is never chosen
(Python's `random.randint` is inclusive on both ends). -/
theorem C5_slice_counterexample :
    Event.saveLatest 2 1 0 SaveTag.latest (SliceChoice.rand 0 2)
        ∈ (runTrain optC5 1).trace ∧
    2 ∈ SliceChoice.support (SliceChoice.rand 0 2) ∧
    ¬(2 < 2) := by decide

/-- C5 amended: whenever the `save_latest_freq` cadence fires, the slice
index for the persisted visualization is the current batch index
(deterministic) when `batch_size = 1`, and otherwise is drawn from the
closed interval `[0, batch_size]` — inclusive of `batch_size` itself
(`src/atme.py:88-94`). -/
theorem C5_slice_choice (opt : Opt) (N t e i : Nat) (g : SaveTag)
    (c : SliceChoice)
    (hmem : Event.saveLatest t e i g c ∈ (runTrain opt N).trace) :
    c = sliceNumChoice opt.batch_size i ∧
    (opt.batch_size = 1 → c = SliceChoice.det i) ∧
    (opt.batch_size ≠ 1 →
      SliceChoice.support c = Finset.Icc 0 opt.batch_size) := by
  have h : c = sliceNumChoice opt.batch_size i :=
    saveChoiceOk_runTrain opt N _ hmem
  refine ⟨h, ?_, ?_⟩
  · intro h1
    rw [h]
    unfold sliceNumChoice
    rw [if_pos h1]
  · intro h1
    rw [h]
    unfold sliceNumChoice
    rw [if_neg h1]
    rfl

/-- Witness for C5 (amended): the concrete firing recorded in
`C5_slice_counterexample`'s run satisfies the amended description. -/
theorem C5_slice_choice_witness :
    (Event.saveLatest 2 1 0 SaveTag.latest (SliceChoice.rand 0 2)
        ∈ (runTrain optC5 1).trace) ∧
    SliceChoice.rand 0 2 = sliceNumChoice optC5.batch_size 0 ∧
    SliceChoice.support (SliceChoice.rand 0 2) = Finset.Icc 0 optC5.batch_size := by
  have h := C5_slice_choice optC5 1 2 1 0 SaveTag.latest (SliceChoice.rand 0 2)
    (by decide)
  exact ⟨by decide, h.1, h.2.2 (by decide)⟩

/-- Recognizer for `update_learning_rate` events. -/
def isUpdateLREv : Event → Bool
  | .updateLR _ => true
  | _ => false

/-- Recognizer for `optimize_parameters` events. -/
def isOptimizeEv : Event → Bool
  | .optimize _ _ => true
  | _ => false

/-- C4: scenario A — with `epoch_count = 1`, `n_epochs = 2`,
`n_epochs_decay = 0`, `batch_size = 1`, `save_latest_freq = 1000000` and
a dataset yielding 3 examples per epoch, the run makes exactly 2
`update_learning_rate` calls, exactly 6 `optimize_parameters` calls, the
counter ends at 6, and the post-step counters are `[1, 2, 3, 4, 5, 6]` —
advancing by exactly `batch_size` per step, strictly increasing
(`src/atme.py:57-74`). -/
theorem C4_scenario_a :
    (runTrain optW 3).trace.countP isUpdateLREv = 2 ∧
    (runTrain optW 3).trace.countP isOptimizeEv = 6 ∧
    (runTrain optW 3).total_iters = 6 ∧
    stepIters (runTrain optW 3).trace = [1, 2, 3, 4, 5, 6] ∧
    (stepIters (runTrain optW 3).trace).Pairwise (· < ·) := by decide

/-- Counterexample to C6 as stated: a run of the evaluation loop mutates
configuration fields — with both grayscale bounds zero at entry,
`global_min` leaves the run holding the externally computed bound (3, not
its entry value 0), and `isTrain` leaves the run `False` though it was
`True` at entry (`src/atme.py:111`, `src/atme.py:125-126`). -/
theorem C6_counterexample :
    (runTest optW (3, 9) 1).opt.global_min = 3 ∧
    optW.global_min = 0 ∧
    (runTest optW (3, 9) 1).opt.isTrain = false ∧
    optW.isTrain = true := by decide

/-- C6 amended: the batch/case iterations themselves never assign any
configuration field — the configuration a run ends with is exactly the
one produced by the function prologue — but the prologues do mutate the
configuration: both loops assign `isTrain`, `save_dir`, `data_dir`, and
the evaluation prologue overwrites `global_min`/`global_max` iff both are
zero; every other field keeps its entry value
(`src/atme.py:39-45`, `src/atme.py:110-126`). -/
theorem C6_config_frame (opt : Opt) (computed : Int × Int) (n N : Nat) :
    (runTest opt computed n).opt = testSetup opt computed ∧
    (runTrainDriver opt N).1 = trainSetup opt ∧
    (testSetup opt computed).main_root = opt.main_root ∧
    (testSetup opt computed).model_root = opt.model_root ∧
    (testSetup opt computed).exp_name = opt.exp_name ∧
    (testSetup opt computed).data_name = opt.data_name ∧
    (testSetup opt computed).epoch_count = opt.epoch_count ∧
    (testSetup opt computed).n_epochs = opt.n_epochs ∧
    (testSetup opt computed).n_epochs_decay = opt.n_epochs_decay ∧
    (testSetup opt computed).batch_size = opt.batch_size ∧
    (testSetup opt computed).display_freq = opt.display_freq ∧
    (testSetup opt computed).update_html_freq = opt.update_html_freq ∧
    (testSetup opt computed).print_freq = opt.print_freq ∧
    (testSetup opt computed).save_latest_freq = opt.save_latest_freq ∧
    (testSetup opt computed).save_epoch_freq = opt.save_epoch_freq ∧
    (testSetup opt computed).save_by_iter = opt.save_by_iter ∧
    (testSetup opt computed).has_n_save_noisy = opt.has_n_save_noisy ∧
    (testSetup opt computed).save_nifti = opt.save_nifti ∧
    (testSetup opt computed).vol_cube_dim = opt.vol_cube_dim ∧
    (testSetup opt computed).global_min
        = (if opt.global_min = 0 ∧ opt.global_max = 0 then computed.1
           else opt.global_min) ∧
    (testSetup opt computed).global_max
        = (if opt.global_min = 0 ∧ opt.global_max = 0 then computed.2
           else opt.global_max) ∧
    (trainSetup opt).main_root = opt.main_root ∧
    (trainSetup opt).model_root = opt.model_root ∧
    (trainSetup opt).exp_name = opt.exp_name ∧
    (trainSetup opt).data_name = opt.data_name ∧
    (trainSetup opt).epoch_count = opt.epoch_count ∧
    (trainSetup opt).n_epochs = opt.n_epochs ∧
    (trainSetup opt).n_epochs_decay = opt.n_epochs_decay ∧
    (trainSetup opt).batch_size = opt.batch_size ∧
    (trainSetup opt).display_freq = opt.display_freq ∧
    (trainSetup opt).update_html_freq = opt.update_html_freq ∧
    (trainSetup opt).print_freq = opt.print_freq ∧
    (trainSetup opt).save_latest_freq = opt.save_latest_freq ∧
    (trainSetup opt).save_epoch_freq = opt.save_epoch_freq ∧
    (trainSetup opt).save_by_iter = opt.save_by_iter ∧
    (trainSetup opt).has_n_save_noisy = opt.has_n_save_noisy ∧
    (trainSetup opt).save_nifti = opt.save_nifti ∧
    (trainSetup opt).vol_cube_dim = opt.vol_cube_dim ∧
    (trainSetup opt).global_min = opt.global_min ∧
    (trainSetup opt).global_max = opt.global_max := by
  have hmin : (testSetup opt computed).global_min
      = (if opt.global_min = 0 ∧ opt.global_max = 0 then computed.1
         else opt.global_min) := by
    unfold testSetup
    by_cases h : opt.global_min = 0 ∧ opt.global_max = 0 <;> simp [h]
  have hmax : (testSetup opt computed).global_max
      = (if opt.global_min = 0 ∧ opt.global_max = 0 then computed.2
         else opt.global_max) := by
    unfold testSetup
    by_cases h : opt.global_min = 0 ∧ opt.global_max = 0 <;> simp [h]
  refine ⟨rfl, rfl, ?_, ?_, ?_, ?_, ?_, ?_, ?_, ?_, ?_, ?_, ?_, ?_, ?_, ?_, ?_,
    ?_, ?_, hmin, hmax, rfl, rfl, rfl, rfl, rfl, rfl, rfl, rfl, rfl, rfl, rfl,
    rfl, rfl, rfl, rfl, rfl, rfl, rfl, rfl⟩ <;>
    · simp only [testSetup]
      split <;> rfl

end SimpleThreePlanes
